import Mathlib

/-!
# Verification of the SonarQube onboarding orchestrator

Shallow embedding of `src/lib/lambda/sonarqubeOnboarding.lambda.ts`.

The lambda reads four environment values, fetches admin credentials from a
secret store, polls the SonarQube health endpoint, and then, for each of the
two configured service accounts, runs create-user, grant-permission,
generate-token and persist-token in order.

JavaScript values parsed from JSON are modelled by the inductive `Json`;
JavaScript expression values (which may also be `undefined`) by `JsVal`.
Property access follows JavaScript semantics: access on `null` or `undefined`
throws a TypeError, access on an object looks the key up, access on an array
uses numeric-string indexing, access on a string indexes its characters, and
access on a number or boolean yields `undefined`.

External behaviour (the secret store and every HTTP endpoint) is packaged in a
`World` of oracles; the interpreter returns the list of externally visible
requests (`Event`s, in issue order) together with the run's outcome.
-/

/-- A JSON value, as produced by `JSON.parse`. -/
inductive Json where
  | null : Json
  | bool : Bool → Json
  | num : Int → Json
  | str : String → Json
  | arr : List Json → Json
  | obj : List (String × Json) → Json

/-- A JavaScript expression value: a JSON value or `undefined`. -/
inductive JsVal where
  | undefined : JsVal
  | val : Json → JsVal

/-- First-match lookup in the field list of a JavaScript object. -/
def objLookup : List (String × Json) → String → Option Json
  | [], _ => none
  | (k', v) :: rest, k => if k' = k then some v else objLookup rest k

/-- Accumulating decimal parser over a character list; `none` as soon as a
non-digit appears. -/
def parseIndexAux : Nat → List Char → Option Nat
  | acc, [] => some acc
  | acc, c :: cs =>
    if c.isDigit then parseIndexAux (acc * 10 + (c.toNat - 48)) cs else none

/-- A property key read as a numeric index: `some i` when the key consists
of decimal digits only, `none` otherwise. -/
def parseIndex (k : String) : Option Nat :=
  match k.toList with
  | [] => none
  | c :: cs => parseIndexAux 0 (c :: cs)

/-- Indexing an array by a property key: numeric-string keys address
elements (out-of-range gives `undefined`), other keys give `undefined`. -/
def jsonIndex (xs : List Json) (k : String) : JsVal :=
  match parseIndex k with
  | some i =>
    match xs.get? i with
    | some v => .val v
    | none => .undefined
  | none => .undefined

/-- Indexing a string by a property key: numeric-string keys address single
characters, other keys give `undefined`. -/
def strIndex (s : String) (k : String) : JsVal :=
  match parseIndex k with
  | some i =>
    match s.toList.get? i with
    | some c => .val (.str (String.singleton c))
    | none => .undefined
  | none => .undefined

/-- JavaScript property access `v[k]`.  Throws (`.error ()`) on `null` and
`undefined`; never throws on any other value. -/
def jsGetProp : JsVal → String → Except Unit JsVal
  | .undefined, _ => .error ()
  | .val .null, _ => .error ()
  | .val (.obj fs), k =>
    .ok (match objLookup fs k with
         | some v => .val v
         | none => .undefined)
  | .val (.arr xs), k => .ok (jsonIndex xs k)
  | .val (.str s), k => .ok (strIndex s k)
  | .val (.num _), _ => .ok .undefined
  | .val (.bool _), _ => .ok .undefined

/-- `needle` occurs as a contiguous prefix of some suffix of the haystack. -/
def charsInclude (needle : List Char) : List Char → Bool
  | [] => needle.isEmpty
  | c :: rest => needle.isPrefixOf (c :: rest) || charsInclude needle rest

/-- `needle` occurs as a contiguous substring of `s`
(the behaviour of `String.prototype.includes`). -/
def strIncludes (s needle : String) : Bool :=
  charsInclude needle.toList s.toList

/-- A JavaScript call `v.includes(needle)` with a string argument: defined on
strings (substring test) and arrays (`Array.prototype.includes`, which under
strict equality can only match string elements); a TypeError on every other
value (`undefined.includes`, `null.includes`, or `includes` not a function). -/
def jsIncludes (v : JsVal) (needle : String) : Except Unit Bool :=
  match v with
  | .val (.str s) => .ok (strIncludes s needle)
  | .val (.arr xs) =>
    .ok (xs.any fun j =>
      match j with
      | .str s => s == needle
      | _ => false)
  | _ => .error ()

/-- JavaScript string conversion of a JSON value, as in a template literal.
Arrays render as `Array.prototype.join` with separator `","`, in which
`null` elements become the empty string. -/
def jsonToString : Json → String
  | .null => "null"
  | .bool true => "true"
  | .bool false => "false"
  | .num n => toString n
  | .str s => s
  | .obj _ => "[object Object]"
  | .arr xs => joinElems xs
where
  joinElems : List Json → String
    | [] => ""
    | [.null] => ""
    | [x] => jsonToString x
    | .null :: y :: rest => "," ++ joinElems (y :: rest)
    | x :: y :: rest => jsonToString x ++ "," ++ joinElems (y :: rest)

/-- JavaScript string conversion of an expression value. -/
def jsToString : JsVal → String
  | .undefined => "undefined"
  | .val j => jsonToString j

/-- Replace the value at `k` keeping its position, or append `(k, v)`
(JavaScript property-assignment order semantics). -/
def setOrAppend : List (String × Json) → String → Json → List (String × Json)
  | [], k, v => [(k, v)]
  | (k', v') :: rest, k, v =>
    if k' = k then (k, v) :: rest else (k', v') :: setOrAppend rest k v

/-- The effect, on the eventually serialized record, of the JavaScript
assignment `creds[k] = v` followed by `JSON.stringify`: on an object,
assigning a defined value sets the field and assigning `undefined` drops it
(as `JSON.stringify` omits `undefined`-valued properties); assignment to a
non-object primitive is ignored. -/
def jsSetField (j : Json) (k : String) (v : JsVal) : Json :=
  match j, v with
  | .obj fs, .val jv => .obj (setOrAppend fs k jv)
  | .obj fs, .undefined => .obj (fs.filter fun p => p.1 ≠ k)
  | j, _ => j

/-- An HTTP error response attached to an axios error. -/
structure HttpResp where
  status : Nat
  body : Json

/-- An axios request failure: `response` is present for HTTP-status errors
and absent for network errors. -/
structure AxiosErr where
  response : Option HttpResp

/-- The request content of `POST /api/users/create`. -/
structure CreateUserReq where
  login : JsVal
  name : JsVal
  password : JsVal
  authUser : JsVal
  authPass : JsVal

/-- The request content of `POST /api/permissions/add_user`. -/
structure GrantReq where
  login : JsVal
  permission : String
  authUser : JsVal
  authPass : JsVal

/-- The request content of `POST /api/user_tokens/generate`. -/
structure TokenReq where
  name : String
  authUser : JsVal
  authPass : JsVal

/-- The error that terminates a run, tagged by the step that raised it. -/
inductive RunError where
  | configError : RunError
  | smError : String → RunError
  | serviceUnavailable : RunError
  | createError : AxiosErr → RunError
  | grantError : AxiosErr → RunError
  | tokenError : AxiosErr → RunError
  | typeError : RunError
  | putError : String → RunError

/-- An externally visible request issued by the run, in issue order. -/
inductive Event where
  | getSecret : String → Event
  | healthCheck : Nat → Event
  | createUser : CreateUserReq → Event
  | grantPermission : GrantReq → Event
  | generateToken : TokenReq → Event
  | putSecret : String → Json → Event

/-- The external world: environment variables and oracles fixing the outcome
of every secret-store call and HTTP request the run can make.  `getSecret`
returns the parsed `SecretString` (`none` when the secret carries no string);
its `.error` case covers a failing `getSecretValue` call and an unparsable
secret string. -/
structure World where
  sonarUrl : Option String
  adminSecretArn : Option String
  jenkinsSecretArn : Option String
  codeBuildSecretArn : Option String
  getSecret : String → Except Unit (Option Json)
  statusGet : Nat → Except Unit Json
  createUserResp : CreateUserReq → Except AxiosErr Unit
  grantResp : GrantReq → Except AxiosErr Unit
  tokenResp : TokenReq → Except AxiosErr Json
  putSecret : String → Json → Except Unit Unit

/-- JavaScript truthiness of an optional environment string:
`undefined` and `""` are falsy. -/
def present : Option String → Bool
  | none => false
  | some s => s ≠ ""

/-- The guard `sonarUrl && adminSecretArn && jenkinsSecretArn &&
codeBuildSecretArn` of the handler's configuration check. -/
def envPresent (w : World) : Bool :=
  present w.sonarUrl && present w.adminSecretArn &&
    present w.jenkinsSecretArn && present w.codeBuildSecretArn

/-- The admin secret reference (defaulted after the configuration check). -/
def adminArnOf (w : World) : String := w.adminSecretArn.getD ""

/-- The Jenkins service-account secret reference. -/
def jenkinsArnOf (w : World) : String := w.jenkinsSecretArn.getD ""

/-- The CodeBuild service-account secret reference. -/
def codeBuildArnOf (w : World) : String := w.codeBuildSecretArn.getD ""

/-- One health-poll attempt: `response.data.status === 'UP'`, where a
network error or a thrown property access inside the `try` is a retry. -/
def attemptUp (r : Except Unit Json) : Bool :=
  match r with
  | .error _ => false
  | .ok d =>
    match jsGetProp (.val d) "status" with
    | .ok (.val (.str s)) => s == "UP"
    | _ => false

/-- The poll loop of `waitForSonarQube`: attempts `i`, `i+1`, … while fuel
lasts, returning on the first attempt whose response reports status UP and
failing with `serviceUnavailable` when the budget is exhausted. -/
def waitLoop (statusGet : Nat → Except Unit Json) : Nat → Nat → List Event × Except RunError Unit
  | _, 0 => ([], .error .serviceUnavailable)
  | i, fuel + 1 =>
    if attemptUp (statusGet i) then ([.healthCheck i], .ok ())
    else
      let rest := waitLoop statusGet (i + 1) fuel
      (.healthCheck i :: rest.1, rest.2)

/-- `waitForSonarQube`: 30 attempts starting at attempt 0. -/
def waitForSonarQube (w : World) : List Event × Except RunError Unit :=
  waitLoop w.statusGet 0 30

/-- The property-access chain `error.response.data.errors[0].msg` of the
already-exists check in `createUser`. -/
def errorsMsg (d : Json) : Except Unit JsVal :=
  match jsGetProp (.val d) "errors" with
  | .error _ => .error ()
  | .ok a =>
    match jsGetProp a "0" with
    | .error _ => .error ()
    | .ok b => jsGetProp b "msg"

/-- The catch-clause condition of `createUser`:
`error.response && error.response.status === 400 &&
error.response.data.errors[0].msg.includes('already exists')`,
with `.error ()` when evaluating it throws a TypeError. -/
def alreadyExistsCheck (e : AxiosErr) : Except Unit Bool :=
  match e.response with
  | none => .ok false
  | some r =>
    if r.status = 400 then
      match errorsMsg r.body with
      | .error _ => .error ()
      | .ok v => jsIncludes v "already exists"
    else .ok false

/-- The outcome of `createUser` given the response to its POST: a failure is
forgiven exactly when the catch-clause condition evaluates to true; a failing
condition rethrows the original error, and a TypeError thrown while
evaluating the condition replaces it. -/
def createUserStep (resp : Except AxiosErr Unit) : Except RunError Unit :=
  match resp with
  | .ok _ => .ok ()
  | .error e =>
    match alreadyExistsCheck e with
    | .ok true => .ok ()
    | .ok false => .error (.createError e)
    | .error _ => .error .typeError

/-- `processServiceAccount`: read the account's secret, create the user,
grant the `scan` permission, generate a token named `<username>-token`
authenticating as the account, and persist the record with the token field
set.  Returns the issued requests in order together with the outcome. -/
def processServiceAccount (w : World) (au ap : JsVal) (arn : String) :
    List Event × Except RunError Unit :=
  match w.getSecret arn with
  | .error _ => ([.getSecret arn], .error (.smError arn))
  | .ok ss =>
    let creds : Json := ss.getD (.obj [])
    match jsGetProp (.val creds) "username" with
    | .error _ => ([.getSecret arn], .error .typeError)
    | .ok u =>
      match jsGetProp (.val creds) "password" with
      | .error _ => ([.getSecret arn], .error .typeError)
      | .ok p =>
        let cReq : CreateUserReq := ⟨u, u, p, au, ap⟩
        match createUserStep (w.createUserResp cReq) with
        | .error e => ([.getSecret arn, .createUser cReq], .error e)
        | .ok _ =>
          let gReq : GrantReq := ⟨u, "scan", au, ap⟩
          match w.grantResp gReq with
          | .error e =>
            ([.getSecret arn, .createUser cReq, .grantPermission gReq],
             .error (.grantError e))
          | .ok _ =>
            let tReq : TokenReq := ⟨jsToString u ++ "-token", u, p⟩
            match w.tokenResp tReq with
            | .error e =>
              ([.getSecret arn, .createUser cReq, .grantPermission gReq,
                .generateToken tReq], .error (.tokenError e))
            | .ok d =>
              match jsGetProp (.val d) "token" with
              | .error _ =>
                ([.getSecret arn, .createUser cReq, .grantPermission gReq,
                  .generateToken tReq], .error .typeError)
              | .ok tok =>
                let newCreds := jsSetField creds "token" tok
                match w.putSecret arn newCreds with
                | .error _ =>
                  ([.getSecret arn, .createUser cReq, .grantPermission gReq,
                    .generateToken tReq, .putSecret arn newCreds],
                   .error (.putError arn))
                | .ok _ =>
                  ([.getSecret arn, .createUser cReq, .grantPermission gReq,
                    .generateToken tReq, .putSecret arn newCreds], .ok ())

/-- The handler: check the four environment values, read and parse the admin
secret (absent `SecretString` parses as the empty object), read the admin
username and password, wait for SonarQube, then process the Jenkins account
followed by the CodeBuild account. -/
def handler (w : World) : List Event × Except RunError Unit :=
  if envPresent w then
    match w.getSecret (adminArnOf w) with
    | .error _ => ([.getSecret (adminArnOf w)], .error (.smError (adminArnOf w)))
    | .ok ss =>
      match jsGetProp (.val (ss.getD (.obj []))) "username" with
      | .error _ => ([.getSecret (adminArnOf w)], .error .typeError)
      | .ok au =>
        match jsGetProp (.val (ss.getD (.obj []))) "password" with
        | .error _ => ([.getSecret (adminArnOf w)], .error .typeError)
        | .ok ap =>
          match waitForSonarQube w with
          | (hEvs, .error e) => (.getSecret (adminArnOf w) :: hEvs, .error e)
          | (hEvs, .ok _) =>
            match processServiceAccount w au ap (jenkinsArnOf w) with
            | (evs1, .error e) =>
              (.getSecret (adminArnOf w) :: hEvs ++ evs1, .error e)
            | (evs1, .ok _) =>
              match processServiceAccount w au ap (codeBuildArnOf w) with
              | (evs2, r2) =>
                (.getSecret (adminArnOf w) :: hEvs ++ evs1 ++ evs2, r2)
  else ([], .error .configError)

/-! ## Derived notions used by the specification claims -/

/-- The object field list viewed as JavaScript property access
(missing keys give `undefined`). -/
def objProp (fs : List (String × Json)) (k : String) : JsVal :=
  match objLookup fs k with
  | some v => .val v
  | none => .undefined

/-- The event is the secret-store read of the given reference. -/
def Event.isGetSecretOf (arn : String) : Event → Bool
  | .getSecret a => a == arn
  | _ => false

/-- The event is a health-poll attempt. -/
def Event.isHealth : Event → Bool
  | .healthCheck _ => true
  | _ => false

/-- The event is a create-user request. -/
def Event.isCreate : Event → Bool
  | .createUser _ => true
  | _ => false

/-- The event is a permission-grant request. -/
def Event.isGrant : Event → Bool
  | .grantPermission _ => true
  | _ => false

/-- The event is a token-generation request. -/
def Event.isToken : Event → Bool
  | .generateToken _ => true
  | _ => false

/-- The event is a secret-store write. -/
def Event.isPut : Event → Bool
  | .putSecret _ _ => true
  | _ => false

/-- The event is a per-account operation: any request other than a health
poll and the admin-secret read. -/
def Event.isAccountOp (adminArn : String) : Event → Bool
  | .getSecret a => a != adminArn
  | .healthCheck _ => false
  | _ => true

/-- The error is a failure of the final secret-store write. -/
def isPutError : RunError → Bool
  | .putError _ => true
  | _ => false

/-- Every `q`-event of the list is strictly preceded by some `p`-event:
walking left to right, a `q`-event before the first `p`-event refutes the
property, and the first `p`-event validates everything after it. -/
def precedes (p q : Event → Bool) : List Event → Bool
  | [] => true
  | e :: rest => if q e then false else if p e then true else precedes p q rest

/-- The chain `response.data.errors[0].msg` resolves, under JavaScript
property access, to a value that supports `.includes` (a string or an
array). -/
def msgIncludable (d : Json) : Bool :=
  match errorsMsg d with
  | .ok (.val (.str _)) => true
  | .ok (.val (.arr _)) => true
  | _ => false


/-! ## Concrete worlds used to instantiate the claims -/

/-- Admin username value resolved from the admin secret of `baseWorld`. -/
def adminU : JsVal := .val (.str "admin")

/-- Admin password value resolved from the admin secret of `baseWorld`. -/
def adminP : JsVal := .val (.str "p1")

/-- A world in which every external call succeeds: environment set, secrets
resolvable, SonarQube up on the first poll, every API call accepted. -/
def baseWorld : World where
  sonarUrl := some "http://sonar.local"
  adminSecretArn := some "admin-arn"
  jenkinsSecretArn := some "jenkins-arn"
  codeBuildSecretArn := some "codebuild-arn"
  getSecret := fun arn =>
    if arn = "admin-arn" then
      .ok (some (.obj [("username", .str "admin"), ("password", .str "p1")]))
    else if arn = "jenkins-arn" then
      .ok (some (.obj [("username", .str "jenkins"), ("password", .str "p2")]))
    else if arn = "codebuild-arn" then
      .ok (some (.obj [("username", .str "codebuild"), ("password", .str "p3")]))
    else .error ()
  statusGet := fun _ => .ok (.obj [("status", .str "UP")])
  createUserResp := fun _ => .ok ()
  grantResp := fun _ => .ok ()
  tokenResp := fun _ => .ok (.obj [("token", .str "abc123")])
  putSecret := fun _ _ => .ok ()

/-- A 400 create-user failure whose body is the documented SonarQube error
shape with an already-exists message. -/
def eAlready : AxiosErr :=
  ⟨some ⟨400, .obj [("errors", .arr [.obj [("msg", .str "User already exists.")]])]⟩⟩

/-- A 403 create-user failure (not an already-exists situation). -/
def eForbidden : AxiosErr := ⟨some ⟨403, .obj []⟩⟩

/-- A 400 create-user failure whose body carries no `errors` field at all. -/
def eEmptyBody : AxiosErr := ⟨some ⟨400, .obj []⟩⟩

/-- A 400 create-user failure whose body holds `errors` as an OBJECT keyed
`"0"` (not an array), with an already-exists message inside. -/
def eObjZero : AxiosErr :=
  ⟨some ⟨400, .obj [("errors", .obj [("0", .obj [("msg", .str "Login already exists")])])]⟩⟩

/-- `baseWorld`, but every create-user request fails with `eAlready`. -/
def wAmnesty : World := { baseWorld with createUserResp := fun _ => .error eAlready }

/-- `baseWorld`, but every create-user request fails with `eForbidden`. -/
def wCreateFail : World := { baseWorld with createUserResp := fun _ => .error eForbidden }

/-- `baseWorld`, but token generation fails for the Jenkins account only. -/
def wC2 : World :=
  { baseWorld with
    tokenResp := fun r =>
      if r.name = "jenkins-token" then .error ⟨none⟩
      else .ok (.obj [("token", .str "abc123")]) }

/-- `baseWorld`, but the admin secret exists with no secret string at all
(so it parses as the empty object, with no username or password). -/
def wC8 : World :=
  { baseWorld with
    getSecret := fun arn =>
      if arn = "admin-arn" then .ok none else baseWorld.getSecret arn }

/-- `baseWorld`, but the admin secret cannot be retrieved. -/
def wAdminErr : World := { baseWorld with getSecret := fun _ => .error () }

/-- `baseWorld`, but the health endpoint always fails. -/
def wDown : World := { baseWorld with statusGet := fun _ => .error () }

/-- `baseWorld`, but every permission grant fails with a network error. -/
def wGrantFail : World := { baseWorld with grantResp := fun _ => .error ⟨none⟩ }

/-- `baseWorld`, but the environment variable `SONAR_URL` is unset. -/
def wNoEnv : World := { baseWorld with sonarUrl := none }

/-! ## Basic lemmas -/

theorem objLookup_setOrAppend_self (fs : List (String × Json)) (k : String) (v : Json) :
    objLookup (setOrAppend fs k v) k = some v := by
  induction fs with
  | nil => simp [setOrAppend, objLookup]
  | cons hd tl ih =>
    by_cases h : hd.1 = k
    · simp [setOrAppend, h, objLookup]
    · simp [setOrAppend, h, objLookup, ih]

theorem objLookup_setOrAppend_ne (fs : List (String × Json)) (k k' : String) (v : Json)
    (h : k' ≠ k) : objLookup (setOrAppend fs k v) k' = objLookup fs k' := by
  have hk : ¬k = k' := fun h' => h h'.symm
  induction fs with
  | nil => simp [setOrAppend, objLookup, hk]
  | cons hd tl ih =>
    by_cases h1 : hd.1 = k
    · subst h1
      simp [setOrAppend, objLookup, hk]
    · by_cases h2 : hd.1 = k'
      · simp [setOrAppend, h1, objLookup, h2, h]
      · simp [setOrAppend, h1, objLookup, h2, ih]

theorem jsGetProp_obj (fs : List (String × Json)) (k : String) :
    jsGetProp (.val (.obj fs)) k = .ok (objProp fs k) := rfl

theorem jsToString_str (s : String) : jsToString (.val (.str s)) = s := rfl

/-! ## Poll-loop lemmas -/

theorem waitLoop_all_down (sg : Nat → Except Unit Json) :
    ∀ fuel i, (∀ j, j < fuel → attemptUp (sg (i + j)) = false) →
      waitLoop sg i fuel =
        ((List.range' i fuel).map Event.healthCheck, .error .serviceUnavailable) := by
  intro fuel
  induction fuel with
  | zero => intro i _; rfl
  | succ f ih =>
    intro i h
    have h0 : attemptUp (sg i) = false := by
      have := h 0 (Nat.succ_pos f)
      simpa using this
    have hrest : waitLoop sg (i + 1) f =
        ((List.range' (i + 1) f).map Event.healthCheck, .error .serviceUnavailable) := by
      apply ih
      intro j hj
      have := h (j + 1) (Nat.succ_lt_succ hj)
      have e : i + (j + 1) = i + 1 + j := by omega
      rw [e] at this
      exact this
    simp [waitLoop, h0, hrest, List.range'_succ]

theorem waitLoop_finds (sg : Nat → Except Unit Json) :
    ∀ d fuel i, d < fuel → attemptUp (sg (i + d)) = true →
      (∀ j, j < d → attemptUp (sg (i + j)) = false) →
      waitLoop sg i fuel = ((List.range' i (d + 1)).map Event.healthCheck, .ok ()) := by
  intro d
  induction d with
  | zero =>
    intro fuel i hlt hup _
    match fuel, hlt with
    | f + 1, _ =>
      have h0 : attemptUp (sg i) = true := by simpa using hup
      simp [waitLoop, h0, List.range'_succ]
  | succ d ih =>
    intro fuel i hlt hup hdown
    match fuel, hlt with
    | f + 1, hlt =>
      have h0 : attemptUp (sg i) = false := by
        have := hdown 0 (Nat.succ_pos d)
        simpa using this
      have hrest : waitLoop sg (i + 1) f =
          ((List.range' (i + 1) (d + 1)).map Event.healthCheck, .ok ()) := by
        apply ih
        · omega
        · have e : i + (d + 1) = i + 1 + d := by omega
          rw [e] at hup
          exact hup
        · intro j hj
          have := hdown (j + 1) (Nat.succ_lt_succ hj)
          have e : i + (j + 1) = i + 1 + j := by omega
          rw [e] at this
          exact this
      simp [waitLoop, h0, hrest, List.range'_succ]

theorem waitLoop_events_health (sg : Nat → Except Unit Json) :
    ∀ fuel i ev, ev ∈ (waitLoop sg i fuel).1 → ∃ j, ev = Event.healthCheck j := by
  intro fuel
  induction fuel with
  | zero => intro i ev h; simp [waitLoop] at h
  | succ f ih =>
    intro i ev h
    by_cases hup : attemptUp (sg i) = true
    · simp [waitLoop, hup] at h
      exact ⟨i, h⟩
    · simp [waitLoop, hup] at h
      rcases h with h | h
      · exact ⟨i, h⟩
      · exact ih (i + 1) ev h

theorem waitLoop_head (sg : Nat → Except Unit Json) (f i : Nat) :
    ∃ t, (waitLoop sg (i) (f + 1)).1 = Event.healthCheck i :: t := by
  by_cases hup : attemptUp (sg i) = true
  · exact ⟨[], by simp [waitLoop, hup]⟩
  · exact ⟨(waitLoop sg (i + 1) f).1, by simp [waitLoop, hup]⟩

/-! ## Branch structure of the per-account sequence and the handler -/

theorem createUserStep_error_classes (x : Except AxiosErr Unit) (r : RunError)
    (h : createUserStep x = .error r) : (∃ e, r = .createError e) ∨ r = .typeError := by
  cases x with
  | ok _ => simp [createUserStep] at h
  | error e =>
    cases hc : alreadyExistsCheck e with
    | ok b =>
      cases b with
      | true => simp [createUserStep, hc] at h
      | false =>
        simp [createUserStep, hc] at h
        exact Or.inl ⟨e, h.symm⟩
    | error u =>
      simp [createUserStep, hc] at h
      exact Or.inr h.symm

/-- Every run of the per-account sequence produces one of five request
traces: it stops after the secret read, after the create request, after the
grant request, after the token request, or it reaches the final persist
write; the error raised at each stop is of the matching kind. -/
theorem processServiceAccount_shape (w : World) (au ap : JsVal) (arn : String) :
    (∃ r, processServiceAccount w au ap arn = ([.getSecret arn], .error r) ∧
      (r = .smError arn ∨ r = .typeError)) ∨
    (∃ c r, processServiceAccount w au ap arn =
        ([.getSecret arn, .createUser c], .error r) ∧
      ((∃ e, r = .createError e) ∨ r = .typeError)) ∨
    (∃ c g e, processServiceAccount w au ap arn =
        ([.getSecret arn, .createUser c, .grantPermission g], .error (.grantError e)) ∧
      g.permission = "scan") ∨
    (∃ c g t r, processServiceAccount w au ap arn =
        ([.getSecret arn, .createUser c, .grantPermission g, .generateToken t],
         .error r) ∧
      ((∃ e, r = .tokenError e) ∨ r = .typeError) ∧ g.permission = "scan") ∨
    (∃ c g t v r, processServiceAccount w au ap arn =
        ([.getSecret arn, .createUser c, .grantPermission g, .generateToken t,
          .putSecret arn v], r) ∧
      (r = .ok () ∨ r = .error (.putError arn)) ∧ g.permission = "scan") := by
  cases hg : w.getSecret arn with
  | error e =>
    exact Or.inl ⟨.smError arn, by simp [processServiceAccount, hg], Or.inl rfl⟩
  | ok ss =>
    cases hu : jsGetProp (.val (ss.getD (.obj []))) "username" with
    | error e =>
      exact Or.inl ⟨.typeError, by simp [processServiceAccount, hg, hu], Or.inr rfl⟩
    | ok u =>
      cases hp : jsGetProp (.val (ss.getD (.obj []))) "password" with
      | error e =>
        exact Or.inl ⟨.typeError, by simp [processServiceAccount, hg, hu, hp], Or.inr rfl⟩
      | ok p =>
        cases hc : createUserStep (w.createUserResp ⟨u, u, p, au, ap⟩) with
        | error e =>
          refine Or.inr (Or.inl ⟨⟨u, u, p, au, ap⟩, e,
            by simp [processServiceAccount, hg, hu, hp, hc], ?_⟩)
          exact createUserStep_error_classes _ _ hc
        | ok _ =>
          cases hgr : w.grantResp ⟨u, "scan", au, ap⟩ with
          | error e =>
            exact Or.inr (Or.inr (Or.inl ⟨⟨u, u, p, au, ap⟩, ⟨u, "scan", au, ap⟩, e,
              by simp [processServiceAccount, hg, hu, hp, hc, hgr], rfl⟩))
          | ok _ =>
            cases ht : w.tokenResp ⟨jsToString u ++ "-token", u, p⟩ with
            | error e =>
              exact Or.inr (Or.inr (Or.inr (Or.inl ⟨⟨u, u, p, au, ap⟩,
                ⟨u, "scan", au, ap⟩, ⟨jsToString u ++ "-token", u, p⟩, .tokenError e,
                by simp [processServiceAccount, hg, hu, hp, hc, hgr, ht],
                Or.inl ⟨e, rfl⟩, rfl⟩)))
            | ok d =>
              cases htok : jsGetProp (.val d) "token" with
              | error e =>
                exact Or.inr (Or.inr (Or.inr (Or.inl ⟨⟨u, u, p, au, ap⟩,
                  ⟨u, "scan", au, ap⟩, ⟨jsToString u ++ "-token", u, p⟩, .typeError,
                  by simp [processServiceAccount, hg, hu, hp, hc, hgr, ht, htok],
                  Or.inr rfl, rfl⟩)))
              | ok tok =>
                cases hput : w.putSecret arn (jsSetField (ss.getD (.obj [])) "token" tok) with
                | error e =>
                  exact Or.inr (Or.inr (Or.inr (Or.inr ⟨⟨u, u, p, au, ap⟩,
                    ⟨u, "scan", au, ap⟩, ⟨jsToString u ++ "-token", u, p⟩,
                    jsSetField (ss.getD (.obj [])) "token" tok, .error (.putError arn),
                    by simp [processServiceAccount, hg, hu, hp, hc, hgr, ht, htok, hput],
                    Or.inr rfl, rfl⟩)))
                | ok _ =>
                  exact Or.inr (Or.inr (Or.inr (Or.inr ⟨⟨u, u, p, au, ap⟩,
                    ⟨u, "scan", au, ap⟩, ⟨jsToString u ++ "-token", u, p⟩,
                    jsSetField (ss.getD (.obj [])) "token" tok, .ok (),
                    by simp [processServiceAccount, hg, hu, hp, hc, hgr, ht, htok, hput],
                    Or.inl rfl, rfl⟩)))

theorem allHealth_any_accountOp (a : String) (l : List Event)
    (h : ∀ ev ∈ l, ∃ j, ev = Event.healthCheck j) :
    l.any (Event.isAccountOp a) = false := by
  rw [List.any_eq_false]
  intro ev hev
  rcases h ev hev with ⟨j, rfl⟩
  simp [Event.isAccountOp]

/-- Every handler run has one of three request-trace structures: empty
(configuration failure), only the admin-secret read (admin credentials not
obtained), or the admin-secret read followed by health polling starting at
attempt 0 and then whatever account processing produced; in the last case
either the poller succeeded or nothing follows the poll events. -/
theorem handler_structure (w : World) :
    (handler w).1 = [] ∨ (handler w).1 = [.getSecret (adminArnOf w)] ∨
    ∃ hTail rest, (handler w).1 =
        .getSecret (adminArnOf w) :: .healthCheck 0 :: (hTail ++ rest) ∧
      (∀ ev ∈ hTail, ∃ j, ev = Event.healthCheck j) ∧
      ((waitForSonarQube w).2 = .ok () ∨ rest = []) := by
  by_cases henv : envPresent w
  · cases hg : w.getSecret (adminArnOf w) with
    | error e => right; left; simp [handler, henv, hg]
    | ok ss =>
      cases hu : jsGetProp (.val (ss.getD (.obj []))) "username" with
      | error e => right; left; simp [handler, henv, hg, hu]
      | ok au =>
        cases hp : jsGetProp (.val (ss.getD (.obj []))) "password" with
        | error e => right; left; simp [handler, henv, hg, hu, hp]
        | ok ap =>
          obtain ⟨t, ht⟩ := waitLoop_head w.statusGet 29 0
          have htail : ∀ ev ∈ t, ∃ j, ev = Event.healthCheck j := by
            intro ev hev
            exact waitLoop_events_health w.statusGet 30 0 ev (by rw [ht]; exact List.mem_cons_of_mem _ hev)
          rcases hwq : waitForSonarQube w with ⟨hEvs, hr⟩
          have hEvs_eq : hEvs = Event.healthCheck 0 :: t := by
            have : (waitForSonarQube w).1 = Event.healthCheck 0 :: t := ht
            rw [hwq] at this
            exact this
          cases hr with
          | error e =>
            right; right
            refine ⟨t, [], ?_, htail, Or.inr rfl⟩
            simp [handler, henv, hg, hu, hp, hwq, hEvs_eq]
          | ok _ =>
            have hok : (waitForSonarQube w).2 = .ok () := by rw [hwq]
            rcases hp1 : processServiceAccount w au ap (jenkinsArnOf w) with ⟨evs1, r1⟩
            cases r1 with
            | error e =>
              right; right
              refine ⟨t, evs1, ?_, htail, Or.inl rfl⟩
              simp [handler, henv, hg, hu, hp, hwq, hEvs_eq, hp1]
            | ok _ =>
              rcases hp2 : processServiceAccount w au ap (codeBuildArnOf w) with ⟨evs2, r2⟩
              right; right
              refine ⟨t, evs1 ++ evs2, ?_, htail, Or.inl rfl⟩
              simp [handler, henv, hg, hu, hp, hwq, hEvs_eq, hp1, hp2]
  · left; simp [handler, henv]

/-! ## The claims -/

/-- C1: a create-user failure is treated as success exactly when it carries
an HTTP 400 response whose error-body message (the value reached by
`error.response.data.errors[0].msg`) contains the substring
"already exists"; in that case the account's sequence continues with the
permission-grant step, and any create-user failure not matching the pattern
is raised as an error that ends the account's sequence at the create step. -/
theorem c1_already_exists_amnesty :
    (∀ e : AxiosErr,
      createUserStep (.error e) = .ok () ↔
        ∃ r, e.response = some r ∧ r.status = 400 ∧
          ∃ v, errorsMsg r.body = .ok v ∧ jsIncludes v "already exists" = .ok true) ∧
    (∀ (w : World) (au ap : JsVal) (arn : String) (ss : Option Json) (u p : JsVal),
      w.getSecret arn = .ok ss →
      jsGetProp (.val (ss.getD (.obj []))) "username" = .ok u →
      jsGetProp (.val (ss.getD (.obj []))) "password" = .ok p →
      createUserStep (w.createUserResp ⟨u, u, p, au, ap⟩) = .ok () →
      Event.grantPermission ⟨u, "scan", au, ap⟩ ∈ (processServiceAccount w au ap arn).1) ∧
    (∀ (w : World) (au ap : JsVal) (arn : String) (ss : Option Json) (u p : JsVal)
      (err : RunError),
      w.getSecret arn = .ok ss →
      jsGetProp (.val (ss.getD (.obj []))) "username" = .ok u →
      jsGetProp (.val (ss.getD (.obj []))) "password" = .ok p →
      createUserStep (w.createUserResp ⟨u, u, p, au, ap⟩) = .error err →
      processServiceAccount w au ap arn =
        ([.getSecret arn, .createUser ⟨u, u, p, au, ap⟩], .error err)) := by
  refine ⟨?_, ?_, ?_⟩
  · intro e
    constructor
    · intro h
      cases he : e.response with
      | none => simp [createUserStep, alreadyExistsCheck, he] at h
      | some r =>
        by_cases hs : r.status = 400
        · cases hm : errorsMsg r.body with
          | error u => simp [createUserStep, alreadyExistsCheck, he, hs, hm] at h
          | ok v =>
            cases hi : jsIncludes v "already exists" with
            | error u => simp [createUserStep, alreadyExistsCheck, he, hs, hm, hi] at h
            | ok b =>
              cases b with
              | false => simp [createUserStep, alreadyExistsCheck, he, hs, hm, hi] at h
              | true => exact ⟨r, rfl, hs, v, hm, hi⟩
        · simp [createUserStep, alreadyExistsCheck, he, hs] at h
    · rintro ⟨r, he, hs, v, hm, hi⟩
      simp [createUserStep, alreadyExistsCheck, he, hs, hm, hi]
  · intro w au ap arn ss u p hg hu hp hc
    cases hgr : w.grantResp ⟨u, "scan", au, ap⟩ with
    | error e => simp [processServiceAccount, hg, hu, hp, hc, hgr]
    | ok _ =>
      cases ht : w.tokenResp ⟨jsToString u ++ "-token", u, p⟩ with
      | error e => simp [processServiceAccount, hg, hu, hp, hc, hgr, ht]
      | ok d =>
        cases htok : jsGetProp (.val d) "token" with
        | error e => simp [processServiceAccount, hg, hu, hp, hc, hgr, ht, htok]
        | ok tok =>
          cases hput : w.putSecret arn (jsSetField (ss.getD (.obj [])) "token" tok) with
          | error e => simp [processServiceAccount, hg, hu, hp, hc, hgr, ht, htok, hput]
          | ok _ => simp [processServiceAccount, hg, hu, hp, hc, hgr, ht, htok, hput]
  · intro w au ap arn ss u p err hg hu hp hc
    simp [processServiceAccount, hg, hu, hp, hc]

/-- C1 witness: the amnesty accepts the documented already-exists error and
the sequence then reaches the grant step; a 403 error ends the Jenkins
sequence right after the create request. -/
theorem c1_witness :
    createUserStep (.error eAlready) = .ok () ∧
    Event.grantPermission ⟨.val (.str "jenkins"), "scan", adminU, adminP⟩ ∈
      (processServiceAccount wAmnesty adminU adminP "jenkins-arn").1 ∧
    processServiceAccount wCreateFail adminU adminP "jenkins-arn" =
      ([.getSecret "jenkins-arn",
        .createUser ⟨.val (.str "jenkins"), .val (.str "jenkins"), .val (.str "p2"),
          adminU, adminP⟩],
       .error (.createError eForbidden)) := by
  refine ⟨?_, ?_, ?_⟩
  · exact (c1_already_exists_amnesty.1 eAlready).mpr
      ⟨⟨400, .obj [("errors", .arr [.obj [("msg", .str "User already exists.")]])]⟩,
        rfl, rfl, .val (.str "User already exists."), rfl, rfl⟩
  · exact c1_already_exists_amnesty.2.1 wAmnesty adminU adminP "jenkins-arn"
      (some (.obj [("username", .str "jenkins"), ("password", .str "p2")]))
      (.val (.str "jenkins")) (.val (.str "p2")) rfl rfl rfl rfl
  · exact c1_already_exists_amnesty.2.2 wCreateFail adminU adminP "jenkins-arn"
      (some (.obj [("username", .str "jenkins"), ("password", .str "p2")]))
      (.val (.str "jenkins")) (.val (.str "p2")) (.createError eForbidden) rfl rfl rfl rfl

/-- C2 counterexample: in `wC2` only the Jenkins token-generation call fails
while every call the CodeBuild account would make succeeds (its token
response is `abc123`); yet the run aborts with the Jenkins token error and
the CodeBuild account is never touched — its secret is never read and no
secret write at all happens, refuting the claim that the second account's
sequence is still attempted and persisted. -/
theorem c2_counterexample :
    (handler wC2).2 = .error (.tokenError ⟨none⟩) ∧
    ((handler wC2).1.any (Event.isGetSecretOf "codebuild-arn")) = false ∧
    ((handler wC2).1.any Event.isPut) = false ∧
    wC2.tokenResp ⟨"codebuild-token", .val (.str "codebuild"), .val (.str "p3")⟩ =
      .ok (.obj [("token", .str "abc123")]) :=
  ⟨rfl, rfl, rfl, rfl⟩

/-- C2 amended: when the first configured account's sequence fails, the
handler propagates that error immediately and the second account's sequence
is not attempted at all (the run's requests are exactly the admin read, the
health polls and the first account's requests); the second account is
processed only in runs where the first account's sequence succeeds. -/
theorem c2_amended_first_failure_aborts :
    ∀ (w : World) (ss : Option Json) (au ap : JsVal) (hEvs evs1 : List Event)
      (e : RunError),
      envPresent w = true →
      w.getSecret (adminArnOf w) = .ok ss →
      jsGetProp (.val (ss.getD (.obj []))) "username" = .ok au →
      jsGetProp (.val (ss.getD (.obj []))) "password" = .ok ap →
      waitForSonarQube w = (hEvs, .ok ()) →
      processServiceAccount w au ap (jenkinsArnOf w) = (evs1, .error e) →
      handler w = (.getSecret (adminArnOf w) :: hEvs ++ evs1, .error e) := by
  intro w ss au ap hEvs evs1 e henv hg hu hp hwq hp1
  simp [handler, henv, hg, hu, hp, hwq, hp1]

/-- C2 witness: the amended statement evaluated in `wC2`. -/
theorem c2_witness :
    handler wC2 =
      (.getSecret "admin-arn" :: [Event.healthCheck 0] ++
        [.getSecret "jenkins-arn",
         .createUser ⟨.val (.str "jenkins"), .val (.str "jenkins"), .val (.str "p2"),
           adminU, adminP⟩,
         .grantPermission ⟨.val (.str "jenkins"), "scan", adminU, adminP⟩,
         .generateToken ⟨"jenkins-token", .val (.str "jenkins"), .val (.str "p2")⟩],
       .error (.tokenError ⟨none⟩)) :=
  c2_amended_first_failure_aborts wC2
    (some (.obj [("username", .str "admin"), ("password", .str "p1")]))
    adminU adminP [Event.healthCheck 0]
    [.getSecret "jenkins-arn",
     .createUser ⟨.val (.str "jenkins"), .val (.str "jenkins"), .val (.str "p2"),
       adminU, adminP⟩,
     .grantPermission ⟨.val (.str "jenkins"), "scan", adminU, adminP⟩,
     .generateToken ⟨"jenkins-token", .val (.str "jenkins"), .val (.str "p2")⟩]
    (.tokenError ⟨none⟩) rfl rfl rfl rfl rfl rfl

/-- C7: when any of the four required environment values is missing or
empty, the handler fails with the configuration error before issuing any
request: no secret-store read and no HTTP request (the request trace is
empty). -/
theorem c7_config_guard :
    ∀ w : World, envPresent w = false → handler w = ([], .error .configError) := by
  intro w h
  simp [handler, h]

/-- C7 witness: the configuration guard evaluated with `SONAR_URL` unset. -/
theorem c7_witness : handler wNoEnv = ([], .error .configError) :=
  c7_config_guard wNoEnv rfl

/-- The per-account sequence always begins with the account's secret read. -/
theorem processServiceAccount_head (w : World) (au ap : JsVal) (arn : String) :
    ∃ t, (processServiceAccount w au ap arn).1 = Event.getSecret arn :: t := by
  rcases processServiceAccount_shape w au ap arn with
    ⟨r, h, _⟩ | ⟨c, r, h, _⟩ | ⟨c, g, e, h, _⟩ | ⟨c, g, t, r, h, _⟩ | ⟨c, g, t, v, r, h, _⟩ <;>
    exact ⟨_, by rw [h]⟩

/-- C3: when all 30 health-poll attempts fail or report a non-UP status, the
run terminates with the service-unavailable error and the request trace
holds nothing beyond the admin-secret read and health polls (in particular
no create-user request and no other per-account operation); conversely the
poller returns right at the first attempt reporting status UP, after which
account processing proceeds (the first account's secret read is issued). -/
theorem c3_health_gate :
    (∀ (w : World) (ss : Option Json) (au ap : JsVal),
      envPresent w = true →
      w.getSecret (adminArnOf w) = .ok ss →
      jsGetProp (.val (ss.getD (.obj []))) "username" = .ok au →
      jsGetProp (.val (ss.getD (.obj []))) "password" = .ok ap →
      (∀ i, i < 30 → attemptUp (w.statusGet i) = false) →
      (handler w).2 = .error .serviceUnavailable ∧
        ∀ ev ∈ (handler w).1,
          ev = .getSecret (adminArnOf w) ∨ ∃ j, ev = Event.healthCheck j) ∧
    (∀ (w : World) (k : Nat), k < 30 → attemptUp (w.statusGet k) = true →
      (∀ j, j < k → attemptUp (w.statusGet j) = false) →
      waitForSonarQube w = ((List.range' 0 (k + 1)).map Event.healthCheck, .ok ())) ∧
    (∀ (w : World) (ss : Option Json) (au ap : JsVal) (k : Nat),
      envPresent w = true →
      w.getSecret (adminArnOf w) = .ok ss →
      jsGetProp (.val (ss.getD (.obj []))) "username" = .ok au →
      jsGetProp (.val (ss.getD (.obj []))) "password" = .ok ap →
      k < 30 → attemptUp (w.statusGet k) = true →
      (∀ j, j < k → attemptUp (w.statusGet j) = false) →
      Event.getSecret (jenkinsArnOf w) ∈ (handler w).1) := by
  refine ⟨?_, ?_, ?_⟩
  · intro w ss au ap henv hg hu hp hdown
    have hwq : waitForSonarQube w =
        ((List.range' 0 30).map Event.healthCheck, .error .serviceUnavailable) := by
      apply waitLoop_all_down
      intro j hj
      simpa using hdown j hj
    constructor
    · simp [handler, henv, hg, hu, hp, hwq]
    · intro ev hev
      simp [handler, henv, hg, hu, hp, hwq] at hev
      rcases hev with hev | hev
      · exact Or.inl hev
      · rcases hev with ⟨j, _, hj⟩
        exact Or.inr ⟨j, hj.symm⟩
  · intro w k hk hup hdown
    apply waitLoop_finds
    · exact hk
    · simpa using hup
    · intro j hj
      simpa using hdown j hj
  · intro w ss au ap k henv hg hu hp hk hup hdown
    have hwq : waitForSonarQube w =
        ((List.range' 0 (k + 1)).map Event.healthCheck, .ok ()) := by
      apply waitLoop_finds
      · exact hk
      · simpa using hup
      · intro j hj
        simpa using hdown j hj
    obtain ⟨t1, ht1⟩ := processServiceAccount_head w au ap (jenkinsArnOf w)
    rcases hp1 : processServiceAccount w au ap (jenkinsArnOf w) with ⟨evs1, r1⟩
    have hevs1 : evs1 = Event.getSecret (jenkinsArnOf w) :: t1 := by
      have h' := ht1
      rw [hp1] at h'
      exact h'
    cases r1 with
    | error e => simp [handler, henv, hg, hu, hp, hwq, hp1, hevs1]
    | ok _ =>
      rcases hp2 : processServiceAccount w au ap (codeBuildArnOf w) with ⟨evs2, r2⟩
      simp [handler, henv, hg, hu, hp, hwq, hp1, hp2, hevs1]

/-- C3 witness: the two directions evaluated in `wDown` (health endpoint
always failing) and `baseWorld` (up on the first attempt). -/
theorem c3_witness :
    ((handler wDown).2 = .error .serviceUnavailable ∧
      ∀ ev ∈ (handler wDown).1,
        ev = .getSecret (adminArnOf wDown) ∨ ∃ j, ev = Event.healthCheck j) ∧
    waitForSonarQube baseWorld = ([Event.healthCheck 0], .ok ()) ∧
    Event.getSecret "jenkins-arn" ∈ (handler baseWorld).1 := by
  refine ⟨?_, ?_, ?_⟩
  · exact c3_health_gate.1 wDown
      (some (.obj [("username", .str "admin"), ("password", .str "p1")]))
      adminU adminP rfl rfl rfl rfl (fun i _ => rfl)
  · exact c3_health_gate.2.1 baseWorld 0 (by omega) rfl (fun j hj => absurd hj (Nat.not_lt_zero j))
  · exact c3_health_gate.2.2 baseWorld
      (some (.obj [("username", .str "admin"), ("password", .str "p1")]))
      adminU adminP 0 rfl rfl rfl rfl (by omega) rfl (fun j hj => absurd hj (Nat.not_lt_zero j))

/-- C4: when an account's sequence completes, the record written back is
exactly the record read at the start with the `token` field set to the newly
generated token: the written object's `token` field holds the new token, and
every other key (in particular `username` and `password`) looks up to
exactly its pre-run value; no previously present field is dropped. -/
theorem c4_field_preservation :
    ∀ (w : World) (au ap : JsVal) (arn : String) (fs : List (String × Json))
      (d tok : Json),
      w.getSecret arn = .ok (some (.obj fs)) →
      createUserStep (w.createUserResp
        ⟨objProp fs "username", objProp fs "username", objProp fs "password", au, ap⟩) =
        .ok () →
      w.grantResp ⟨objProp fs "username", "scan", au, ap⟩ = .ok () →
      w.tokenResp ⟨jsToString (objProp fs "username") ++ "-token",
        objProp fs "username", objProp fs "password"⟩ = .ok d →
      jsGetProp (.val d) "token" = .ok (.val tok) →
      w.putSecret arn (.obj (setOrAppend fs "token" tok)) = .ok () →
      processServiceAccount w au ap arn =
        ([.getSecret arn,
          .createUser ⟨objProp fs "username", objProp fs "username",
            objProp fs "password", au, ap⟩,
          .grantPermission ⟨objProp fs "username", "scan", au, ap⟩,
          .generateToken ⟨jsToString (objProp fs "username") ++ "-token",
            objProp fs "username", objProp fs "password"⟩,
          .putSecret arn (.obj (setOrAppend fs "token" tok))], .ok ()) ∧
      objLookup (setOrAppend fs "token" tok) "token" = some tok ∧
      (∀ k, k ≠ "token" → objLookup (setOrAppend fs "token" tok) k = objLookup fs k) := by
  intro w au ap arn fs d tok hg hc hgr ht htok hput
  refine ⟨?_, objLookup_setOrAppend_self fs "token" tok,
    fun k hk => objLookup_setOrAppend_ne fs "token" k tok hk⟩
  simp [processServiceAccount, hg, jsGetProp_obj, hc, hgr, ht, htok, hput, jsSetField]

/-- C4 witness: the Jenkins account of `baseWorld`; its pre-run record is
`username=jenkins, password=p2` and the written record keeps both and adds
the token. -/
theorem c4_witness :
    processServiceAccount baseWorld adminU adminP "jenkins-arn" =
      ([.getSecret "jenkins-arn",
        .createUser ⟨.val (.str "jenkins"), .val (.str "jenkins"), .val (.str "p2"),
          adminU, adminP⟩,
        .grantPermission ⟨.val (.str "jenkins"), "scan", adminU, adminP⟩,
        .generateToken ⟨"jenkins-token", .val (.str "jenkins"), .val (.str "p2")⟩,
        .putSecret "jenkins-arn"
          (.obj [("username", .str "jenkins"), ("password", .str "p2"),
                 ("token", .str "abc123")])], .ok ()) ∧
    objLookup [("username", Json.str "jenkins"), ("password", Json.str "p2"),
      ("token", Json.str "abc123")] "username" = some (.str "jenkins") ∧
    objLookup [("username", Json.str "jenkins"), ("password", Json.str "p2"),
      ("token", Json.str "abc123")] "password" = some (.str "p2") := by
  have h := c4_field_preservation baseWorld adminU adminP "jenkins-arn"
    [("username", .str "jenkins"), ("password", .str "p2")]
    (.obj [("token", .str "abc123")]) (.str "abc123") rfl rfl rfl rfl rfl rfl
  exact ⟨h.1, (h.2.2 "username" (by decide)).trans rfl, (h.2.2 "password" (by decide)).trans rfl⟩

/-- C9: under a successful sequence whose stored username is the string
`un`, the token-generation request carries the name `un ++ "-token"`
(username `jenkins` yields `jenkins-token`), and the token value of the
service's response body is exactly the value stored under `token` in the
persisted record. -/
theorem c9_token_name_and_value :
    ∀ (w : World) (au ap : JsVal) (arn : String) (fs : List (String × Json))
      (un : String) (pw : Json) (d tok : Json),
      w.getSecret arn = .ok (some (.obj fs)) →
      objLookup fs "username" = some (.str un) →
      objLookup fs "password" = some pw →
      createUserStep (w.createUserResp
        ⟨.val (.str un), .val (.str un), .val pw, au, ap⟩) = .ok () →
      w.grantResp ⟨.val (.str un), "scan", au, ap⟩ = .ok () →
      w.tokenResp ⟨un ++ "-token", .val (.str un), .val pw⟩ = .ok d →
      jsGetProp (.val d) "token" = .ok (.val tok) →
      w.putSecret arn (.obj (setOrAppend fs "token" tok)) = .ok () →
      Event.generateToken ⟨un ++ "-token", .val (.str un), .val pw⟩ ∈
        (processServiceAccount w au ap arn).1 ∧
      Event.putSecret arn (.obj (setOrAppend fs "token" tok)) ∈
        (processServiceAccount w au ap arn).1 ∧
      objLookup (setOrAppend fs "token" tok) "token" = some tok := by
  intro w au ap arn fs un pw d tok hg hun hpw hc hgr ht htok hput
  refine ⟨?_, ?_, objLookup_setOrAppend_self fs "token" tok⟩ <;>
    simp [processServiceAccount, hg, jsGetProp_obj, objProp, hun, hpw, jsToString_str,
      hc, hgr, ht, htok, hput, jsSetField]

/-- C9 witness: username `jenkins` yields token name `jenkins-token` and the
response token `abc123` is the value persisted. -/
theorem c9_witness :
    Event.generateToken ⟨"jenkins-token", .val (.str "jenkins"), .val (.str "p2")⟩ ∈
      (processServiceAccount baseWorld adminU adminP "jenkins-arn").1 ∧
    Event.putSecret "jenkins-arn"
      (.obj [("username", .str "jenkins"), ("password", .str "p2"),
             ("token", .str "abc123")]) ∈
      (processServiceAccount baseWorld adminU adminP "jenkins-arn").1 ∧
    objLookup [("username", Json.str "jenkins"), ("password", Json.str "p2"),
      ("token", Json.str "abc123")] "token" = some (.str "abc123") :=
  c9_token_name_and_value baseWorld adminU adminP "jenkins-arn"
    [("username", .str "jenkins"), ("password", .str "p2")]
    "jenkins" (.str "p2") (.obj [("token", .str "abc123")]) (.str "abc123")
    rfl rfl rfl rfl rfl rfl rfl rfl

/-- C5: when an account's sequence fails with any error other than a
persist-write failure (secret read, create, grant, token generation, or a
TypeError in between), no secret-store write is issued for that account; and
whenever a write is issued it is the final request of the account's
sequence, so nothing further is attempted after a write (hence after a
write failure). -/
theorem c5_no_write_on_failure :
    ∀ (w : World) (au ap : JsVal) (arn : String),
      (∀ e : RunError, (processServiceAccount w au ap arn).2 = .error e →
        isPutError e = false →
        ((processServiceAccount w au ap arn).1.any Event.isPut) = false) ∧
      (∀ (a : String) (v : Json),
        Event.putSecret a v ∈ (processServiceAccount w au ap arn).1 →
        ∃ pre, (processServiceAccount w au ap arn).1 = pre ++ [Event.putSecret a v]) := by
  intro w au ap arn
  rcases processServiceAccount_shape w au ap arn with
    ⟨r, h, hr⟩ | ⟨c, r, h, hr⟩ | ⟨c, g, e0, h, hperm⟩ | ⟨c, g, t, r, h, hr, hperm⟩ |
    ⟨c, g, t, v0, r, h, hr, hperm⟩ <;> rw [h] <;> constructor
  · intro e he hpe
    simp [Event.isPut]
  · intro a v hv
    simp at hv
  · intro e he hpe
    simp [Event.isPut, Event.isCreate]
  · intro a v hv
    simp at hv
  · intro e he hpe
    simp [Event.isPut]
  · intro a v hv
    simp at hv
  · intro e he hpe
    simp [Event.isPut]
  · intro a v hv
    simp at hv
  · intro e he hpe
    rcases hr with rfl | rfl
    · simp at he
    · simp at he
      subst he
      simp [isPutError] at hpe
  · intro a v hv
    simp at hv
    refine ⟨[.getSecret arn, .createUser c, .grantPermission g, .generateToken t], ?_⟩
    simp [hv.1, hv.2]

/-- C5 witness: a failed grant issues no write for that account; in a fully
successful run the write is the account's last request. -/
theorem c5_witness :
    ((processServiceAccount wGrantFail adminU adminP "jenkins-arn").1.any Event.isPut)
      = false ∧
    ∃ pre, (processServiceAccount baseWorld adminU adminP "jenkins-arn").1 =
      pre ++ [Event.putSecret "jenkins-arn"
        (.obj [("username", .str "jenkins"), ("password", .str "p2"),
               ("token", .str "abc123")])] := by
  constructor
  · exact (c5_no_write_on_failure wGrantFail adminU adminP "jenkins-arn").1
      (.grantError ⟨none⟩) rfl rfl
  · have htr : (processServiceAccount baseWorld adminU adminP "jenkins-arn").1 =
      [.getSecret "jenkins-arn",
       .createUser ⟨.val (.str "jenkins"), .val (.str "jenkins"), .val (.str "p2"),
         adminU, adminP⟩,
       .grantPermission ⟨.val (.str "jenkins"), "scan", adminU, adminP⟩,
       .generateToken ⟨"jenkins-token", .val (.str "jenkins"), .val (.str "p2")⟩,
       .putSecret "jenkins-arn"
         (.obj [("username", .str "jenkins"), ("password", .str "p2"),
                ("token", .str "abc123")])] := rfl
    exact (c5_no_write_on_failure baseWorld adminU adminP "jenkins-arn").2
      "jenkins-arn" _ (by rw [htr]; simp)

/-- C6: admin-credential retrieval strictly precedes health polling; health
polling (and its success) strictly precedes every per-account operation;
within one account's sequence the create request precedes the grant request
(always for capability `scan`), which precedes the token request, which
precedes the persist write; and a grant failure prevents both token
generation and persistence for that account. -/
theorem c6_step_ordering :
    (∀ w : World,
      precedes (Event.isGetSecretOf (adminArnOf w)) Event.isHealth (handler w).1 = true) ∧
    (∀ w : World,
      precedes Event.isHealth (Event.isAccountOp (adminArnOf w)) (handler w).1 = true) ∧
    (∀ w : World, ((handler w).1.any (Event.isAccountOp (adminArnOf w)) = true) →
      (waitForSonarQube w).2 = .ok ()) ∧
    (∀ (w : World) (au ap : JsVal) (arn : String),
      precedes Event.isCreate Event.isGrant (processServiceAccount w au ap arn).1 = true ∧
      precedes Event.isGrant Event.isToken (processServiceAccount w au ap arn).1 = true ∧
      precedes Event.isToken Event.isPut (processServiceAccount w au ap arn).1 = true ∧
      ∀ g, Event.grantPermission g ∈ (processServiceAccount w au ap arn).1 →
        g.permission = "scan") ∧
    (∀ (w : World) (au ap : JsVal) (arn : String) (e : AxiosErr),
      (processServiceAccount w au ap arn).2 = .error (.grantError e) →
      ((processServiceAccount w au ap arn).1.any Event.isToken) = false ∧
      ((processServiceAccount w au ap arn).1.any Event.isPut) = false) := by
  refine ⟨?_, ?_, ?_, ?_, ?_⟩
  · intro w
    rcases handler_structure w with h | h | ⟨hTail, rest, h, _, _⟩ <;> rw [h] <;>
      simp [precedes, Event.isGetSecretOf, Event.isHealth]
  · intro w
    rcases handler_structure w with h | h | ⟨hTail, rest, h, _, _⟩ <;> rw [h] <;>
      simp [precedes, Event.isAccountOp, Event.isHealth]
  · intro w hany
    rcases handler_structure w with h | h | ⟨hTail, rest, h, hhealth, hdis⟩
    · rw [h] at hany
      simp at hany
    · rw [h] at hany
      simp [Event.isAccountOp] at hany
    · rcases hdis with hok | rfl
      · exact hok
      · rw [h] at hany
        simp [Event.isAccountOp, List.any_append] at hany
        rcases hany with ⟨x, hx, hmatch⟩
        rcases hhealth x hx with ⟨j, rfl⟩
        simp at hmatch
  · intro w au ap arn
    rcases processServiceAccount_shape w au ap arn with
      ⟨r, h, hr⟩ | ⟨c, r, h, hr⟩ | ⟨c, g, e0, h, hperm⟩ | ⟨c, g, t, r, h, hr, hperm⟩ |
      ⟨c, g, t, v0, r, h, hr, hperm⟩ <;> rw [h] <;>
      refine ⟨by simp [precedes, Event.isCreate, Event.isGrant],
        by simp [precedes, Event.isGrant, Event.isToken],
        by simp [precedes, Event.isToken, Event.isPut], ?_⟩ <;>
      intro g' hg' <;> simp at hg' <;> simp_all
  · intro w au ap arn e he
    rcases processServiceAccount_shape w au ap arn with
      ⟨r, h, hr⟩ | ⟨c, r, h, hr⟩ | ⟨c, g, e0, h, hperm⟩ | ⟨c, g, t, r, h, hr, hperm⟩ |
      ⟨c, g, t, v0, r, h, hr, hperm⟩ <;> rw [h] at he ⊢
    · simp at he
      rcases hr with rfl | rfl <;> simp_all
    · simp at he
      rcases hr with ⟨e1, rfl⟩ | rfl <;> simp_all
    · simp [Event.isToken, Event.isPut]
    · simp at he
      rcases hr with ⟨e1, rfl⟩ | rfl <;> simp_all
    · rcases hr with rfl | rfl <;> simp_all

/-- C6 witness: the ordering statement evaluated in `baseWorld` (health-poll
success precedes the account operations; the grant carried capability
`scan`) and in `wGrantFail` (failed grant blocks token and persist). -/
theorem c6_witness :
    (waitForSonarQube baseWorld).2 = .ok () ∧
    (GrantReq.permission ⟨.val (.str "jenkins"), "scan", adminU, adminP⟩) = "scan" ∧
    ((processServiceAccount wGrantFail adminU adminP "jenkins-arn").1.any Event.isToken)
      = false := by
  refine ⟨c6_step_ordering.2.2.1 baseWorld rfl, ?_, ?_⟩
  · have htr : (processServiceAccount baseWorld adminU adminP "jenkins-arn").1 =
      [.getSecret "jenkins-arn",
       .createUser ⟨.val (.str "jenkins"), .val (.str "jenkins"), .val (.str "p2"),
         adminU, adminP⟩,
       .grantPermission ⟨.val (.str "jenkins"), "scan", adminU, adminP⟩,
       .generateToken ⟨"jenkins-token", .val (.str "jenkins"), .val (.str "p2")⟩,
       .putSecret "jenkins-arn"
         (.obj [("username", .str "jenkins"), ("password", .str "p2"),
                ("token", .str "abc123")])] := rfl
    exact (c6_step_ordering.2.2.2.1 baseWorld adminU adminP "jenkins-arn").2.2.2
      ⟨.val (.str "jenkins"), "scan", adminU, adminP⟩ (by rw [htr]; simp)
  · exact ((c6_step_ordering.2.2.2.2 wGrantFail adminU adminP "jenkins-arn" ⟨none⟩) rfl).1

/-- C8 counterexample: in `wC8` the admin secret is retrievable but carries
no secret string at all, so the parsed admin record has neither username nor
password; the claim says the run fails before any other step, yet the run
polls health (attempt 0 is issued) and in fact completes successfully. -/
theorem c8_counterexample :
    ((handler wC8).1.any Event.isHealth) = true ∧ (handler wC8).2 = .ok () :=
  ⟨rfl, rfl⟩

/-- C8 amended: if the admin-secret retrieval itself fails (secret absent or
unreadable), the run stops before health polling and before any account
operation — its only request is the admin read; but a retrievable admin
secret whose content lacks username or password does not stop the run at
this step: health polling is still entered (attempt 0 issued). -/
theorem c8_amended_admin_retrieval :
    (∀ w : World, envPresent w = true → w.getSecret (adminArnOf w) = .error () →
      handler w = ([.getSecret (adminArnOf w)], .error (.smError (adminArnOf w)))) ∧
    (∀ (w : World) (ss : Option Json) (au ap : JsVal),
      envPresent w = true → w.getSecret (adminArnOf w) = .ok ss →
      jsGetProp (.val (ss.getD (.obj []))) "username" = .ok au →
      jsGetProp (.val (ss.getD (.obj []))) "password" = .ok ap →
      Event.healthCheck 0 ∈ (handler w).1) := by
  constructor
  · intro w henv hg
    simp [handler, henv, hg]
  · intro w ss au ap henv hg hu hp
    obtain ⟨t, ht⟩ := waitLoop_head w.statusGet 29 0
    rcases hwq : waitForSonarQube w with ⟨hEvs, hr⟩
    have hEvs_eq : hEvs = Event.healthCheck 0 :: t := by
      have h' : (waitForSonarQube w).1 = Event.healthCheck 0 :: t := ht
      rw [hwq] at h'
      exact h'
    cases hr with
    | error e => simp [handler, henv, hg, hu, hp, hwq, hEvs_eq]
    | ok _ =>
      rcases hp1 : processServiceAccount w au ap (jenkinsArnOf w) with ⟨evs1, r1⟩
      cases r1 with
      | error e => simp [handler, henv, hg, hu, hp, hwq, hEvs_eq, hp1]
      | ok _ =>
        rcases hp2 : processServiceAccount w au ap (codeBuildArnOf w) with ⟨evs2, r2⟩
        simp [handler, henv, hg, hu, hp, hwq, hEvs_eq, hp1, hp2]

/-- C8 witness: the amended statement evaluated in `wAdminErr` (retrieval
fails: the run stops at once) and in `wC8` (no credentials in the secret:
the run still polls). -/
theorem c8_witness :
    handler wAdminErr = ([.getSecret "admin-arn"], .error (.smError "admin-arn")) ∧
    Event.healthCheck 0 ∈ (handler wC8).1 :=
  ⟨c8_amended_admin_retrieval.1 wAdminErr rfl rfl,
   c8_amended_admin_retrieval.2 wC8 none .undefined .undefined rfl rfl rfl rfl⟩

/-- `"0"` parses as the numeric index 0. -/
theorem parseIndex_zero : parseIndex "0" = some 0 := rfl

/-- C10 counterexample: a 400 response whose body holds `errors` as an
object keyed `"0"` — not a non-empty `errors` array — for which the claim
predicts a TypeError; instead the check evaluates to true and the create
failure is treated as success. -/
theorem c10_counterexample :
    alreadyExistsCheck eObjZero = .ok true ∧ createUserStep (.error eObjZero) = .ok () :=
  ⟨rfl, rfl⟩

/-- C10 amended: on a 400 create-user failure the already-exists check
throws a TypeError exactly when the JavaScript chain
`error.response.data.errors[0].msg` fails to resolve to a string or an
array; when it throws, the raised error is the TypeError (not the original
response error).  Detection is total on bodies of shape
`errors: [ { msg: string }, ... ]`, but also on further shapes reached by
JavaScript coercions, e.g. an `errors` object keyed `"0"`. -/
theorem c10_amended_typeerror :
    ∀ (e : AxiosErr) (r : HttpResp), e.response = some r → r.status = 400 →
      ((alreadyExistsCheck e = .error ()) ↔ msgIncludable r.body = false) ∧
      (msgIncludable r.body = false → createUserStep (.error e) = .error .typeError) ∧
      (∀ (fs : List (String × Json)) (s : String) (rest : List Json),
        objLookup fs "errors" = some (.arr (.obj [("msg", .str s)] :: rest)) →
        msgIncludable (.obj fs) = true) := by
  intro e r he hs
  have hiff : (alreadyExistsCheck e = .error ()) ↔ msgIncludable r.body = false := by
    cases hm : errorsMsg r.body with
    | error u => simp [alreadyExistsCheck, he, hs, hm, msgIncludable]
    | ok v =>
      cases v with
      | undefined => simp [alreadyExistsCheck, he, hs, hm, msgIncludable, jsIncludes]
      | val j =>
        cases j <;> simp [alreadyExistsCheck, he, hs, hm, msgIncludable, jsIncludes]
  refine ⟨hiff, ?_, ?_⟩
  · intro hmi
    have herr := hiff.mpr hmi
    simp [createUserStep, herr]
  · intro fs s rest hfs
    simp [msgIncludable, errorsMsg, jsGetProp_obj, objProp, hfs, jsonIndex,
      parseIndex_zero, jsGetProp, objLookup]

/-- C10 witness: the amended statement evaluated at a 400 response with an
empty object body (TypeError replaces the original error) and at the
documented array-shaped body (no TypeError). -/
theorem c10_witness :
    createUserStep (.error eEmptyBody) = .error .typeError ∧
    msgIncludable (.obj [("errors",
      .arr [.obj [("msg", .str "User already exists.")]])]) = true :=
  ⟨(c10_amended_typeerror eEmptyBody ⟨400, .obj []⟩ rfl rfl).2.1 rfl,
   (c10_amended_typeerror eEmptyBody ⟨400, .obj []⟩ rfl rfl).2.2
     [("errors", .arr [.obj [("msg", .str "User already exists.")]])]
     "User already exists." [] rfl⟩
